import Mathlib

/-!
Shallow embedding of the suomen-palloliitto scraping pipeline
(categories → teams → contacts) and proofs about its specification.

The embedding follows the Python source:
  * `src/scrapers/categories_scraper.py` (Stage 1),
  * `src/scrapers/teams_scraper.py` (Stage 2),
  * `src/scrapers/contact_scraper.py` (Stage 3),
  * `scraper.py` (interactive orchestrator).
Page-interaction code (Selenium) is treated as an oracle function passed
to each stage; the filesystem is a map from path to file content; network
page visits and file writes are recorded as events.
-/

namespace Palloliitto

/-- Contact candidate / record, mirroring the dict built in
`ContactScraper.scrape` (keys `league`, `team`, `administrator_name`,
`position`, `email`, and optional `phone`). -/
structure Contact where
  league : String
  team : String
  administrator_name : String
  position : String
  email : String
  phone : Option String
deriving DecidableEq, Repr

/-- Merging a later candidate `c` into the established record `e` for the
same email: team and league are appended comma-joined, and the position is
appended only when it differs from the record's current position
(`contact_scraper.py` lines 117–121). -/
def mergeFields (e c : Contact) : Contact :=
  { e with
    team := e.team ++ ", " ++ c.team
    league := e.league ++ ", " ++ c.league
    position := if c.position ≠ e.position then e.position ++ ", " ++ c.position
                else e.position }

/-- Update the first record in the list whose email equals `c.email` by
merging `c` into it, mirroring the inner `for existing in unique_contacts
... break` loop of `contact_scraper.py` lines 115–122. -/
def appendContact (c : Contact) : List Contact → List Contact
  | [] => []
  | e :: rest =>
    if e.email = c.email then mergeFields e c :: rest
    else e :: appendContact c rest

/-- One step of the dedup loop of `contact_scraper.py` lines 108–122: the
state is `(unique_contacts, seen_emails)`. -/
def mergeStep (acc : List Contact × List String) (c : Contact) :
    List Contact × List String :=
  if c.email ∈ acc.2 then (appendContact c acc.1, acc.2)
  else (acc.1 ++ [c], acc.2 ++ [c.email])

/-- The Stage 3 merge-by-email ("Remove duplicates") step of
`contact_scraper.py` lines 104–122. -/
def mergeByEmail (contacts : List Contact) : List Contact :=
  (contacts.foldl mergeStep ([], [])).1

/-- Modelled from the spec's words (for comparison with `mergeByEmail`):
"first occurrence establishes the canonical record; subsequent occurrences
of the same email append their team/league identifiers to the existing
record's corresponding fields and append a differing role". The first
occurrence is folded with all later same-email candidates in encounter
order; candidates with other emails are processed in the same way. -/
def mergeSpec : List Contact → List Contact
  | [] => []
  | c :: cs =>
    (cs.filter (fun d => d.email = c.email)).foldl mergeFields c
      :: mergeSpec (cs.filter (fun d => d.email ≠ c.email))
termination_by l => l.length
decreasing_by
  simp only [List.length_cons]
  exact Nat.lt_succ_of_le (List.length_filter_le _ _)

/-- First occurrence of each key, in encounter order. -/
def firstKeys : List String → List String
  | [] => []
  | e :: es => e :: firstKeys (es.filter (fun x => x ≠ e))
termination_by l => l.length
decreasing_by
  simp only [List.length_cons]
  exact Nat.lt_succ_of_le (List.length_filter_le _ _)

/-- Python's `pat in s` substring test on character lists. -/
def containsSeq (pat : List Char) : List Char → Bool
  | [] => pat.isEmpty
  | c :: cs => pat.isPrefixOf (c :: cs) || containsSeq pat cs

/-- Python's `pat in s` substring test on strings. -/
def strContains (s pat : String) : Bool :=
  containsSeq pat.data s.data

/-- Python's `str.replace(pat, rep)`: replace every leftmost non-overlapping
occurrence, continuing the scan after the replacement. The model is used
only with non-empty patterns; an empty pattern leaves the list unchanged. -/
def replaceSeq (pat rep : List Char) : List Char → List Char
  | [] => []
  | c :: cs =>
    if h : pat ≠ [] ∧ pat.isPrefixOf (c :: cs) then
      rep ++ replaceSeq pat rep (List.drop pat.length (c :: cs))
    else
      c :: replaceSeq pat rep cs
termination_by l => l.length
decreasing_by
  · have hp : 0 < pat.length := List.length_pos.mpr h.1
    simp only [List.length_drop, List.length_cons]
    omega
  · simp only [List.length_cons]
    omega

/-- Python's `str.replace` on strings. -/
def strReplace (s pat rep : String) : String :=
  ⟨replaceSeq pat.data rep.data s.data⟩

/-- League entry of Stage 1 output (`leagues.json`: `{name, url}`). -/
structure LeagueRec where
  name : String
  url : String
deriving DecidableEq, Repr

/-- Team entry of Stage 2 output (`teams.json`: `{name, url}`). -/
structure TeamRec where
  name : String
  url : String
deriving DecidableEq, Repr

/-- Per-league group of Stage 2 output (`teams.json`:
`{league_name, league_url, teams}`). -/
structure LeagueTeams where
  league_name : String
  league_url : String
  teams : List TeamRec
deriving DecidableEq, Repr

/-- Content of an artifact file, mirroring the JSON documents of Stages 1
and 2, the CSV of Stage 3, and arbitrary other bytes (`raw`). -/
inductive FileContent where
  | leaguesDoc (timestamp : String) (leagues : List LeagueRec)
  | teamsDoc (timestamp : String) (leagues_processed total_teams : Nat)
      (leagues : List LeagueTeams)
  | csvDoc (rows : List (List String))
  | raw (s : String)
deriving DecidableEq, Repr

/-- Filesystem state: path to file content. -/
def Fs : Type := String → Option FileContent

/-- Write a file. -/
def Fs.set (fs : Fs) (path : String) (v : FileContent) : Fs :=
  fun p => if p = path then some v else fs p

/-- Observable events of a run: page visits (network), file writes, stage
starts, and the per-item log lines the claims distinguish. -/
inductive Ev where
  | visit (url : String)
  | wrote (path : String)
  | stageStart (n : Nat)
  | skipNull (url : String)
  | itemError (item : String)
  | noAdmin (team : String)
deriving DecidableEq, Repr

/-- Whether an event is a file write. -/
def isWrote : Ev → Bool
  | .wrote _ => true
  | _ => false

/-- Whether an event is a page visit. -/
def isVisit : Ev → Bool
  | .visit _ => true
  | _ => false

/-- Errors a stage can raise. -/
inductive ScrapeErr where
  | fileNotFound (path : String)
  | stageError (msg : String)
deriving DecidableEq, Repr

/-- Stage 1 output path (`config["output"]["leagues_file"]`, read back by
Stage 2 as `data/intermediate/leagues.json`). -/
def leaguesPath : String := "data/intermediate/leagues.json"

/-- Stage 2 output path (`teams_scraper.py` line 78). -/
def teamsPath : String := "data/intermediate/teams.json"

/-- Stage 3 output path (`contact_scraper.py` line 125). -/
def contactsPath : String := "data/contacts.csv"

/-- Categories page URL (`categories_page.py` line 21). -/
def categoriesUrl : String := "https://tulospalvelu.palloliitto.fi/categories"

/-- Oracle for the Stage 1 page interaction: whether
`apply_filters_for_scraping` succeeds, and the results it yields. -/
structure Stage1Page where
  filtersOk : Bool
  results : List LeagueRec
deriving Repr

/-- Stage 1, `CategoriesScraper.scrape(delay, resume, dry_run)`
(`categories_scraper.py` lines 55–117). Returns the new filesystem, the
event trace, and the Python return value (always `None` on success). -/
def categoriesScrape (leaguesFile : String) (resume dry_run : Bool)
    (page : Stage1Page) (timestamp : String) (fs : Fs) :
    Fs × List Ev × Except ScrapeErr (Option String) :=
  if dry_run then (fs, [], .ok none)
  else if resume && (fs leaguesFile).isSome then (fs, [], .ok none)
  else if !page.filtersOk then
    (fs, [.visit categoriesUrl], .error (.stageError "Failed to apply filters"))
  else
    (fs.set leaguesFile (.leaguesDoc timestamp page.results),
     [.visit categoriesUrl, .wrote leaguesFile],
     .ok none)

/-- One iteration of the Stage 2 league loop (`teams_scraper.py` lines
59–75): visit the league URL and collect its teams; a per-league
exception is caught and logged, skipping that league. -/
def teamsStep (extract : String → Except String (List TeamRec))
    (acc : List LeagueTeams × List Ev) (lg : LeagueRec) :
    List LeagueTeams × List Ev :=
  match extract lg.url with
  | .ok ts => (acc.1 ++ [⟨lg.name, lg.url, ts⟩], acc.2 ++ [.visit lg.url])
  | .error _ => (acc.1, acc.2 ++ [.visit lg.url, .itemError lg.name])

/-- Stage 2, `TeamsScraper.scrape()` (`teams_scraper.py` lines 30–96).
`extract` is the `TeamsPage.extract_teams` oracle; a per-league exception
is caught and logged, skipping that league. The method takes no resume or
dry-run options. A readable upstream file that is not a leagues document
is modelled as a stage-level error. -/
def teamsScrape (extract : String → Except String (List TeamRec))
    (timestamp : String) (fs : Fs) :
    Fs × List Ev × Except ScrapeErr (Option String) :=
  match fs leaguesPath with
  | none => (fs, [], .error (.fileNotFound leaguesPath))
  | some (.leaguesDoc _ leagues) =>
      let loop := leagues.foldl (teamsStep extract) ([], [])
      let total := (loop.1.map (fun lt => lt.teams.length)).sum
      (fs.set teamsPath (.teamsDoc timestamp leagues.length total loop.1),
       loop.2 ++ [.wrote teamsPath],
       .ok (some teamsPath))
  | some _ => (fs, [], .error (.stageError "invalid leagues file"))

/-- Result of `ContactPage.extract_contact`: a dict with `name` and
`email`, an optional `phone`, and the `position` set on the returned
official (`contact_page.py`). -/
structure ContactInfo where
  name : String
  position : Option String
  email : String
  phone : Option String
deriving DecidableEq, Repr

/-- Flattened team entry built at `contact_scraper.py` lines 48–55. -/
structure StageTeam where
  league_name : String
  team_name : String
  team_url : String
deriving DecidableEq, Repr

/-- Null-team sentinel path segment (`contact_scraper.py` line 73). -/
def nullTeamSentinel : String := "/team/0/"

/-- Contact candidate dict built at `contact_scraper.py` lines 84–94. -/
def mkContact (t : StageTeam) (info : ContactInfo) : Contact :=
  { league := t.league_name
    team := t.team_name
    administrator_name := info.name
    position := info.position.getD "Unknown"
    email := info.email
    phone := info.phone }

/-- One iteration of the Stage 3 team loop (`contact_scraper.py` lines
69–102): skip null-team placeholders before any page visit; otherwise
derive the players URL and call the extraction oracle, catching per-item
failures. Yields the events and the candidate contributed by this team. -/
def processTeam (extract : String → Except String (Option ContactInfo))
    (t : StageTeam) : List Ev × Option Contact :=
  if strContains t.team_url nullTeamSentinel then
    ([.skipNull t.team_url], none)
  else
    let players_url := strReplace t.team_url "/info" "/players"
    match extract players_url with
    | .error _ => ([.visit players_url, .itemError t.team_name], none)
    | .ok none => ([.visit players_url, .noAdmin t.team_name], none)
    | .ok (some info) => ([.visit players_url], some (mkContact t info))

/-- Python `list.insert(i, a)` (for `i ≤ len l`). -/
def insertAt (l : List String) (i : Nat) (a : String) : List String :=
  l.take i ++ a :: l.drop i

/-- CSV fieldnames of Stage 3 (`contact_scraper.py` lines 127–131): the
phone column is inserted at index 3 when any merged record has a phone. -/
def csvFieldnames (unique : List Contact) : List String :=
  let base := ["administrator_name", "position", "email", "team", "league"]
  if unique.any (fun c => c.phone.isSome) then insertAt base 3 "phone" else base

/-- Value of a record under a CSV fieldname (`csv.DictWriter` row cell;
a record without a phone yields the empty-string restval). -/
def contactField (c : Contact) (field : String) : String :=
  if field = "administrator_name" then c.administrator_name
  else if field = "position" then c.position
  else if field = "email" then c.email
  else if field = "phone" then c.phone.getD ""
  else if field = "team" then c.team
  else if field = "league" then c.league
  else ""

/-- Rows of the Stage 3 CSV: header then one row per merged record
(`contact_scraper.py` lines 133–136). -/
def contactsCsvRows (unique : List Contact) : List (List String) :=
  let fields := csvFieldnames unique
  fields :: unique.map (fun c => fields.map (contactField c))

/-- Stage 3, `ContactScraper.scrape()` (`contact_scraper.py` lines
32–145). The method takes no resume or dry-run options. -/
def contactScrape (extract : String → Except String (Option ContactInfo))
    (fs : Fs) : Fs × List Ev × Except ScrapeErr (Option String) :=
  match fs teamsPath with
  | none => (fs, [], .error (.fileNotFound teamsPath))
  | some (.teamsDoc _ _ _ lgs) =>
      let all_teams := lgs.flatMap
        (fun lg => lg.teams.map (fun t => StageTeam.mk lg.league_name t.name t.url))
      let steps := all_teams.map (processTeam extract)
      let contacts := steps.filterMap (fun s => s.2)
      let unique := mergeByEmail contacts
      (fs.set contactsPath (.csvDoc (contactsCsvRows unique)),
       steps.flatMap (fun s => s.1) ++ [.wrote contactsPath],
       .ok (some contactsPath))
  | some _ => (fs, [], .error (.stageError "invalid teams file"))

/-- Run options of the interactive orchestrator (`scraper.py` `main`,
lines 288–293); the politeness delay does not affect observable state and
is elided. -/
structure RunConfig where
  resume : Bool
  dry_run : Bool
deriving DecidableEq, Repr

/-- Environment of one orchestrator run: the page-layer oracles, the
timestamps taken at write time, and the interactive confirmations. -/
structure PipelineOracle where
  page1 : Stage1Page
  ts1 : String
  extractTeams : String → Except String (List TeamRec)
  ts2 : String
  extractContact : String → Except String (Option ContactInfo)
  proceedTeams : Bool
  proceedContact : Bool

/-- Orchestrator runner for Stage 1 (`scraper.py` lines 65–81): passes
`resume` and `dry_run` down and catches any stage exception. -/
def run_categories (cfg : RunConfig) (orc : PipelineOracle) (fs : Fs) :
    Fs × List Ev :=
  let r := categoriesScrape leaguesPath cfg.resume cfg.dry_run orc.page1 orc.ts1 fs
  (r.1, Ev.stageStart 1 :: r.2.1)

/-- Orchestrator runner for Stage 2 (`scraper.py` lines 84–122): returns
early if the Stage 1 artifact is missing or the user declines; otherwise
calls `TeamsScraper.scrape()` — forwarding none of the run options — and
catches any exception. -/
def run_teams (cfg : RunConfig) (orc : PipelineOracle) (fs : Fs) :
    Fs × List Ev :=
  if (fs leaguesPath).isNone then (fs, [Ev.stageStart 2])
  else if !orc.proceedTeams then (fs, [Ev.stageStart 2])
  else
    let r := teamsScrape orc.extractTeams orc.ts2 fs
    (r.1, Ev.stageStart 2 :: r.2.1)

/-- Orchestrator runner for Stage 3 (`scraper.py` lines 125–167): returns
early if the Stage 2 artifact is missing or the user declines; otherwise
calls `ContactScraper.scrape()` — forwarding none of the run options —
and catches any exception. -/
def run_contact (cfg : RunConfig) (orc : PipelineOracle) (fs : Fs) :
    Fs × List Ev :=
  if (fs teamsPath).isNone then (fs, [Ev.stageStart 3])
  else if !orc.proceedContact then (fs, [Ev.stageStart 3])
  else
    let r := contactScrape orc.extractContact fs
    (r.1, Ev.stageStart 3 :: r.2.1)

/-- "Run all stages" of the interactive orchestrator (`scraper.py` lines
170–176): the three runners are called in sequence unconditionally. -/
def run_all_stages (cfg : RunConfig) (orc : PipelineOracle) (fs : Fs) :
    Fs × List Ev :=
  let r1 := run_categories cfg orc fs
  let r2 := run_teams cfg orc r1.1
  let r3 := run_contact cfg orc r2.1
  (r3.1, r1.2 ++ r2.2 ++ r3.2)

/-- Empty filesystem (fresh checkout, no artifacts). -/
def fsEmpty : Fs := fun _ => none

/-- A single league, as a concrete test value. -/
def leagueA : LeagueRec := ⟨"A", "u1"⟩

/-- Filesystem after a previous full run: Stage 1's artifact is present
and Stage 2's artifact holds some earlier bytes. -/
def fsWithLeagues : Fs := fun p =>
  if p = leaguesPath then some (.leaguesDoc "t0" [leagueA])
  else if p = teamsPath then some (.raw "OLD")
  else none

/-- A concrete team entry with a regular (non-sentinel) team URL. -/
def teamX : TeamRec := ⟨"T1", "https://x/team/5/info"⟩

/-- Filesystem holding only a Stage 2 artifact with one team. -/
def fsTeamsReady : Fs := fun p =>
  if p = teamsPath then some (.teamsDoc "t0" 1 1 [⟨"A", "u1", [teamX]⟩])
  else none

/-- Oracle for runs in which every page interaction succeeds. -/
def orcA : PipelineOracle :=
  { page1 := ⟨true, [leagueA]⟩
    ts1 := "ts1"
    extractTeams := fun _ => .ok [⟨"T1", "tu1"⟩]
    ts2 := "ts2"
    extractContact := fun _ => .ok (some ⟨"X", some "Joukkueenjohtaja", "a@x.fi", none⟩)
    proceedTeams := true
    proceedContact := true }

/-- Oracle for runs in which Stage 1 fails to apply its filters (a
stage-level failure). -/
def orcFiltersFail : PipelineOracle := { orcA with page1 := ⟨false, []⟩ }

/-- Contact candidate from team T1. -/
def candTeam1 : Contact := ⟨"L1", "T1", "X", "JoJo", "a@x.fi", none⟩

/-- Contact candidate from team T2: same email, different name, position
and phone. -/
def candTeam2 : Contact := ⟨"L2", "T2", "Y", "Muu", "a@x.fi", some "123"⟩

/-- The record the merge produces from `candTeam1` then `candTeam2`. -/
def mergedRec : Contact := ⟨"L1, L2", "T1, T2", "X", "JoJo, Muu", "a@x.fi", none⟩

/-- A Stage 3 team entry whose URL contains the null-team sentinel. -/
def nullTeam : StageTeam :=
  ⟨"L1", "Null", "https://tulospalvelu.palloliitto.fi/team/0/info"⟩

example :
    mergeByEmail
      [⟨"L1", "T1", "X", "JoJo", "a@x.fi", none⟩,
       ⟨"L2", "T2", "X", "JoJo", "a@x.fi", none⟩]
    = [⟨"L1, L2", "T1, T2", "X", "JoJo", "a@x.fi", none⟩] := by decide

example :
    mergeSpec
      [⟨"L1", "T1", "X", "JoJo", "a@x.fi", none⟩,
       ⟨"L2", "T2", "X", "JoJo", "a@x.fi", none⟩]
    = [⟨"L1, L2", "T1, T2", "X", "JoJo", "a@x.fi", none⟩] := by
  simp [mergeSpec, mergeFields, List.filter]

theorem mergeFields_email (e c : Contact) : (mergeFields e c).email = e.email := rfl

theorem mergeFields_name (e c : Contact) :
    (mergeFields e c).administrator_name = e.administrator_name := rfl

theorem mergeFields_phone (e c : Contact) : (mergeFields e c).phone = e.phone := rfl

theorem foldl_mergeFields_email (gs : List Contact) (e : Contact) :
    (gs.foldl mergeFields e).email = e.email := by
  induction gs generalizing e with
  | nil => rfl
  | cons g gs ih => simpa [List.foldl_cons, mergeFields_email] using ih (mergeFields e g)

theorem foldl_mergeFields_name (gs : List Contact) (e : Contact) :
    (gs.foldl mergeFields e).administrator_name = e.administrator_name := by
  induction gs generalizing e with
  | nil => rfl
  | cons g gs ih => simpa [List.foldl_cons, mergeFields_name] using ih (mergeFields e g)

theorem foldl_mergeFields_phone (gs : List Contact) (e : Contact) :
    (gs.foldl mergeFields e).phone = e.phone := by
  induction gs generalizing e with
  | nil => rfl
  | cons g gs ih => simpa [List.foldl_cons, mergeFields_phone] using ih (mergeFields e g)

theorem appendContact_map_email (c : Contact) (l : List Contact) :
    (appendContact c l).map Contact.email = l.map Contact.email := by
  induction l with
  | nil => rfl
  | cons e rest ih =>
    by_cases h : e.email = c.email
    · simp [appendContact, h, mergeFields_email]
    · simp [appendContact, h, ih]

theorem appendContact_map_foldl (c : Contact) (cs : List Contact)
    (acc : List Contact) (hnd : (acc.map Contact.email).Nodup) :
    (appendContact c acc).map
        (fun a => ((cs.filter (fun d => d.email = a.email)).foldl mergeFields a))
    = acc.map
        (fun a => (((c :: cs).filter (fun d => d.email = a.email)).foldl mergeFields a)) := by
  induction acc with
  | nil => rfl
  | cons a rest ih =>
    simp only [List.map_cons, List.nodup_cons, List.mem_map] at hnd
    by_cases hac : a.email = c.email
    · rw [appendContact, if_pos hac]
      simp only [List.map_cons]
      congr 1
      · rw [List.filter_cons_of_pos (by simp [hac]), List.foldl_cons]
        simp [mergeFields_email]
      · rw [List.map_congr_left]
        intro b hb
        have hbne : b.email ≠ c.email := by
          intro hbc
          exact hnd.1 ⟨b, hb, by rw [hbc, ← hac]⟩
        rw [List.filter_cons_of_neg (by simp; exact fun h => hbne h.symm)]
    · rw [appendContact, if_neg hac]
      simp only [List.map_cons]
      congr 1
      · rw [List.filter_cons_of_neg (by simp; intro hca; exact hac hca.symm)]
      · exact ih hnd.2

theorem foldl_mergeStep_eq (l : List Contact) :
    ∀ acc : List Contact, (acc.map Contact.email).Nodup →
    (l.foldl mergeStep (acc, acc.map Contact.email)).1
    = acc.map (fun a => ((l.filter (fun d => d.email = a.email)).foldl mergeFields a))
      ++ mergeSpec (l.filter (fun c => c.email ∉ acc.map Contact.email)) := by
  induction l with
  | nil =>
    intro acc hnd
    simp [mergeSpec, List.map_id']
  | cons c cs ih =>
    intro acc hnd
    rw [List.foldl_cons]
    by_cases hmem : c.email ∈ acc.map Contact.email
    · have hstep : mergeStep (acc, acc.map Contact.email) c
          = (appendContact c acc, (appendContact c acc).map Contact.email) := by
        rw [mergeStep, if_pos hmem, appendContact_map_email]
      rw [hstep, ih (appendContact c acc) (by rw [appendContact_map_email]; exact hnd)]
      rw [appendContact_map_email]
      rw [appendContact_map_foldl c cs acc hnd]
      congr 1
      congr 1
      rw [List.filter_cons_of_neg (by simp [hmem])]
    · have hstep : mergeStep (acc, acc.map Contact.email) c
          = (acc ++ [c], (acc ++ [c]).map Contact.email) := by
        rw [mergeStep, if_neg hmem]
        simp
      have hnd' : ((acc ++ [c]).map Contact.email).Nodup := by
        simp only [List.map_append, List.map_cons, List.map_nil, List.nodup_append]
        exact ⟨hnd, List.nodup_singleton _, by
          intro x hx hmx
          simp only [List.mem_singleton] at hmx
          exact hmem (hmx ▸ hx)⟩
      rw [hstep, ih (acc ++ [c]) hnd']
      have hamem : ∀ a ∈ acc, a.email ≠ c.email := by
        intro a ha hac
        exact hmem (hac ▸ List.mem_map_of_mem Contact.email ha)
      rw [List.filter_cons_of_pos (by simp [hmem])]
      rw [mergeSpec]
      simp only [List.map_append, List.map_cons, List.map_nil, List.append_assoc,
        List.cons_append, List.nil_append]
      congr 1
      · rw [List.map_congr_left]
        intro a ha
        rw [List.filter_cons_of_neg (by simp; intro hca; exact hamem a ha hca.symm)]
      · congr 1
        · congr 1
          rw [List.filter_filter]
          rw [List.filter_congr]
          intro d _
          by_cases hdc : d.email = c.email
          · simp [hdc, hmem]
          · simp [hdc]
        · congr 1
          rw [List.filter_filter]
          rw [List.filter_congr]
          intro d _
          simp only [List.map_append, List.map_cons, List.map_nil, List.mem_append,
            List.mem_singleton, decide_not]
          by_cases hdc : d.email = c.email
          · simp [hdc]
          · by_cases hdm : d.email ∈ acc.map Contact.email <;> simp [hdc, hdm]

theorem mergeByEmail_eq_mergeSpec (l : List Contact) :
    mergeByEmail l = mergeSpec l := by
  have h := foldl_mergeStep_eq l [] (by simp)
  simpa [mergeByEmail, List.filter_true] using h

theorem map_email_filter_ne (c : Contact) (cs : List Contact) :
    (cs.filter (fun d => d.email ≠ c.email)).map Contact.email
    = (cs.map Contact.email).filter (fun x => x ≠ c.email) := by
  induction cs with
  | nil => rfl
  | cons d ds ih =>
    by_cases h : d.email = c.email
    · rw [List.filter_cons_of_neg (by simp [h]), List.map_cons,
        List.filter_cons_of_neg (by simp [h]), ih]
    · rw [List.filter_cons_of_pos (by simp [h]), List.map_cons, List.map_cons,
        List.filter_cons_of_pos (by simp [h]), ih]

theorem mergeSpec_map_email (l : List Contact) :
    (mergeSpec l).map Contact.email = firstKeys (l.map Contact.email) := by
  induction l using mergeSpec.induct with
  | case1 => simp [mergeSpec, firstKeys]
  | case2 c cs ih =>
    rw [List.map_cons]
    simp only [mergeSpec, firstKeys, List.map_cons]
    congr 1
    · exact foldl_mergeFields_email _ _
    · rw [ih, map_email_filter_ne]

theorem mem_of_mem_firstKeys {x : String} :
    ∀ {es : List String}, x ∈ firstKeys es → x ∈ es := by
  intro es
  induction es using firstKeys.induct with
  | case1 => intro h; simp [firstKeys] at h
  | case2 e es ih =>
    intro h
    simp only [firstKeys, List.mem_cons] at h
    rcases h with h | h
    · exact h ▸ List.mem_cons_self _ _
    · exact List.mem_cons_of_mem _ (List.mem_of_mem_filter (ih h))

theorem firstKeys_nodup : ∀ es : List String, (firstKeys es).Nodup := by
  intro es
  induction es using firstKeys.induct with
  | case1 => simp [firstKeys]
  | case2 e es ih =>
    simp only [firstKeys, List.nodup_cons]
    refine ⟨?_, ih⟩
    intro hmem
    have := List.mem_filter.mp (mem_of_mem_firstKeys hmem)
    simp at this

theorem mergeSpec_of_nodup :
    ∀ l : List Contact, (l.map Contact.email).Nodup → mergeSpec l = l := by
  intro l
  induction l using mergeSpec.induct with
  | case1 => intro _; simp [mergeSpec]
  | case2 c cs ih =>
    intro hnd
    simp only [List.map_cons, List.nodup_cons] at hnd
    have h1 : cs.filter (fun d => d.email = c.email) = [] := by
      rw [List.filter_eq_nil_iff]
      intro d hd
      simp only [decide_eq_true_eq]
      intro hdc
      exact hnd.1 (hdc ▸ List.mem_map_of_mem Contact.email hd)
    have h2 : cs.filter (fun d => d.email ≠ c.email) = cs := by
      rw [List.filter_eq_self]
      intro d hd
      simp only [decide_not, Bool.not_eq_true', decide_eq_false_iff_not]
      intro hdc
      exact hnd.1 (hdc ▸ List.mem_map_of_mem Contact.email hd)
    rw [h2] at ih
    simp only [mergeSpec, h1, h2, List.foldl_nil]
    rw [ih hnd.2]

theorem mergeByEmail_email_nodup (l : List Contact) :
    ((mergeByEmail l).map Contact.email).Nodup := by
  rw [mergeByEmail_eq_mergeSpec, mergeSpec_map_email]
  exact firstKeys_nodup _

theorem mem_mergeSpec_email {r : Contact} {l : List Contact}
    (hr : r ∈ mergeSpec l) : r.email ∈ l.map Contact.email := by
  have h : r.email ∈ (mergeSpec l).map Contact.email := List.mem_map_of_mem _ hr
  rw [mergeSpec_map_email] at h
  exact mem_of_mem_firstKeys h

theorem mergeSpec_first_fields :
    ∀ (l : List Contact) (r : Contact), r ∈ mergeSpec l →
    ∃ c, (l.filter (fun d => d.email = r.email)).head? = some c
      ∧ r.administrator_name = c.administrator_name ∧ r.email = c.email
      ∧ r.phone = c.phone := by
  intro l
  induction l using mergeSpec.induct with
  | case1 => intro r hr; simp [mergeSpec] at hr
  | case2 c cs ih =>
    intro r hr
    simp only [mergeSpec, List.mem_cons] at hr
    rcases hr with hr | hr
    · have hre : r.email = c.email := by rw [hr, foldl_mergeFields_email]
      refine ⟨c, ?_, ?_, hre, ?_⟩
      · rw [List.filter_cons_of_pos (by simp [hre])]
        rfl
      · rw [hr, foldl_mergeFields_name]
      · rw [hr, foldl_mergeFields_phone]
    · have hrne : r.email ≠ c.email := by
        have h1 := mem_mergeSpec_email hr
        rw [map_email_filter_ne] at h1
        have h2 := (List.mem_filter.mp h1).2
        simpa using h2
      obtain ⟨c', hc', hn, he, hp⟩ := ih r hr
      refine ⟨c', ?_, hn, he, hp⟩
      rw [List.filter_cons_of_neg (by simp; exact fun h => hrne h.symm)]
      rw [← hc']
      congr 1
      rw [List.filter_filter]
      rw [List.filter_congr]
      intro d _
      by_cases hdr : d.email = r.email
      · simp [hdr, hrne]
      · simp [hdr]

theorem run_teams_events_head (cfg : RunConfig) (orc : PipelineOracle) (fs : Fs) :
    ∃ tl, (run_teams cfg orc fs).2 = Ev.stageStart 2 :: tl := by
  unfold run_teams
  by_cases h1 : (fs leaguesPath).isNone = true
  · rw [if_pos h1]; exact ⟨[], rfl⟩
  · rw [if_neg h1]
    by_cases h2 : (!orc.proceedTeams) = true
    · rw [if_pos h2]; exact ⟨[], rfl⟩
    · rw [if_neg h2]; exact ⟨_, rfl⟩

theorem run_contact_events_head (cfg : RunConfig) (orc : PipelineOracle) (fs : Fs) :
    ∃ tl, (run_contact cfg orc fs).2 = Ev.stageStart 3 :: tl := by
  unfold run_contact
  by_cases h1 : (fs teamsPath).isNone = true
  · rw [if_pos h1]; exact ⟨[], rfl⟩
  · rw [if_neg h1]
    by_cases h2 : (!orc.proceedContact) = true
    · rw [if_pos h2]; exact ⟨[], rfl⟩
    · rw [if_neg h2]; exact ⟨_, rfl⟩

theorem teamsStep_foldl_no_wrote (extract : String → Except String (List TeamRec)) :
    ∀ (lgs : List LeagueRec) (acc : List LeagueTeams × List Ev),
    ((lgs.foldl (teamsStep extract) acc).2).filter isWrote = acc.2.filter isWrote := by
  intro lgs
  induction lgs with
  | nil => intro acc; rfl
  | cons lg lgs ih =>
    intro acc
    rw [List.foldl_cons, ih]
    unfold teamsStep
    cases extract lg.url with
    | ok ts => simp [List.filter_append, isWrote, List.filter]
    | error e => simp [List.filter_append, isWrote, List.filter]

theorem processTeam_no_wrote
    (extract : String → Except String (Option ContactInfo)) (t : StageTeam) :
    (processTeam extract t).1.filter isWrote = [] := by
  unfold processTeam
  by_cases h : strContains t.team_url nullTeamSentinel = true
  · rw [if_pos h]; rfl
  · rw [if_neg h]
    cases hx : extract (strReplace t.team_url "/info" "/players") with
    | error e => simp [hx, isWrote, List.filter]
    | ok oi => cases oi <;> simp [hx, isWrote, List.filter]

theorem contact_loop_no_wrote
    (extract : String → Except String (Option ContactInfo)) :
    ∀ ts : List StageTeam,
    ((ts.map (processTeam extract)).flatMap (fun s => s.1)).filter isWrote = [] := by
  intro ts
  induction ts with
  | nil => rfl
  | cons t ts ih =>
    rw [List.map_cons, List.flatMap_cons, List.filter_append, ih,
      processTeam_no_wrote]
    rfl

/-- C4: the Stage 3 merge by email produces exactly one record per
distinct email; the first occurrence of an email establishes the record,
every later same-email candidate has its team and league appended
comma-joined in encounter order, and its position appended only when it
differs from the record's current position; no record is dropped other
than by this merge. Formally: `mergeByEmail` equals the specification
function `mergeSpec` (which groups each first occurrence with its later
same-email candidates and folds them in encounter order), and the
resulting emails are pairwise distinct. -/
theorem claim_merge_by_email_correct (l : List Contact) :
    mergeByEmail l = mergeSpec l
    ∧ ((mergeByEmail l).map Contact.email).Nodup :=
  ⟨mergeByEmail_eq_mergeSpec l, mergeByEmail_email_nodup l⟩

/-- C5: the Stage 3 merge step is idempotent: merging the merged record
set again yields the same record set. -/
theorem claim_merge_idempotent (l : List Contact) :
    mergeByEmail (mergeByEmail l) = mergeByEmail l := by
  rw [mergeByEmail_eq_mergeSpec (mergeByEmail l), mergeByEmail_eq_mergeSpec l]
  refine mergeSpec_of_nodup _ ?_
  rw [← mergeByEmail_eq_mergeSpec l]
  exact mergeByEmail_email_nodup l

/-- C10: the merge modifies only the team, league and position fields of
an existing record: every record in the merged output keeps the
administrator name, email and phone of the first-encountered candidate
for its email (so a later candidate's name and phone are discarded). -/
theorem claim_merge_keeps_first_identity (l : List Contact) (r : Contact)
    (hr : r ∈ mergeByEmail l) :
    ∃ c, (l.filter (fun d => d.email = r.email)).head? = some c
      ∧ r.administrator_name = c.administrator_name ∧ r.email = c.email
      ∧ r.phone = c.phone := by
  rw [mergeByEmail_eq_mergeSpec] at hr
  exact mergeSpec_first_fields l r hr

/-- Witness for C10 at a concrete candidate list: the merged record for
`a@x.fi` keeps the first candidate's name `X` and phone `none`, while the
second candidate's name `Y` and phone `123` are discarded. -/
theorem claim_merge_keeps_first_identity_witness :
    mergedRec ∈ mergeByEmail [candTeam1, candTeam2]
    ∧ ∃ c, ([candTeam1, candTeam2].filter
          (fun d => d.email = mergedRec.email)).head? = some c
        ∧ mergedRec.administrator_name = c.administrator_name
        ∧ mergedRec.email = c.email ∧ mergedRec.phone = c.phone :=
  ⟨by decide, claim_merge_keeps_first_identity [candTeam1, candTeam2] mergedRec (by decide)⟩

/-- C6: if the required upstream artifact is absent, Stage 2 and Stage 3
fail with a file-not-found precondition error, produce no event (so no
page visit) and leave the filesystem unchanged. -/
theorem claim_missing_upstream_precondition
    (extract2 : String → Except String (List TeamRec)) (ts : String)
    (extract3 : String → Except String (Option ContactInfo)) (fs : Fs) :
    (fs leaguesPath = none →
      teamsScrape extract2 ts fs = (fs, [], .error (.fileNotFound leaguesPath)))
    ∧ (fs teamsPath = none →
      contactScrape extract3 fs = (fs, [], .error (.fileNotFound teamsPath))) := by
  constructor
  · intro h; unfold teamsScrape; rw [h]
  · intro h; unfold contactScrape; rw [h]

/-- Witness for C6 on the empty filesystem. -/
theorem claim_missing_upstream_precondition_witness :
    teamsScrape (fun _ => .ok []) "ts" fsEmpty
      = (fsEmpty, [], .error (.fileNotFound leaguesPath))
    ∧ contactScrape (fun _ => .ok none) fsEmpty
      = (fsEmpty, [], .error (.fileNotFound teamsPath)) :=
  ⟨(claim_missing_upstream_precondition (fun _ => .ok []) "ts" (fun _ => .ok none) fsEmpty).1 rfl,
   (claim_missing_upstream_precondition (fun _ => .ok []) "ts" (fun _ => .ok none) fsEmpty).2 rfl⟩

/-- C8: a Stage 3 team whose URL contains the null-team sentinel is
skipped before any page visit: its loop iteration produces exactly one
skip-warning event (no visit, no per-item failure) and contributes no
contact candidate, hence no CSV row. -/
theorem claim_null_team_skipped
    (extract : String → Except String (Option ContactInfo)) (t : StageTeam)
    (h : strContains t.team_url nullTeamSentinel = true) :
    processTeam extract t = ([Ev.skipNull t.team_url], none) := by
  unfold processTeam
  rw [if_pos h]

/-- Witness for C8 at a concrete sentinel URL. -/
theorem claim_null_team_skipped_witness :
    strContains nullTeam.team_url nullTeamSentinel = true
    ∧ processTeam (fun _ => .ok none) nullTeam
        = ([Ev.skipNull nullTeam.team_url], none) :=
  ⟨by decide, claim_null_team_skipped (fun _ => .ok none) nullTeam (by decide)⟩

/-- C9: the Stage 3 CSV header is `administrator_name, position, email,
team, league` with a `phone` column immediately after `email` exactly
when some merged record has a phone; the data rows carry one row per
unique administrator email, in first-occurrence order (shown via the
email column of the rows). -/
theorem claim_csv_header_and_rows (cs : List Contact) :
    csvFieldnames (mergeByEmail cs)
      = ["administrator_name", "position", "email"]
        ++ (if (mergeByEmail cs).any (fun c => c.phone.isSome) then ["phone"] else [])
        ++ ["team", "league"]
    ∧ ("phone" ∈ csvFieldnames (mergeByEmail cs)
        ↔ (mergeByEmail cs).any (fun c => c.phone.isSome) = true)
    ∧ ((contactsCsvRows (mergeByEmail cs)).drop 1).map (fun r => r.getD 2 "")
        = firstKeys (cs.map Contact.email) := by
  refine ⟨?_, ?_, ?_⟩
  · unfold csvFieldnames
    by_cases h : (mergeByEmail cs).any (fun c => c.phone.isSome) = true
    · rw [if_pos h, if_pos h]; rfl
    · rw [if_neg h, if_neg h]; rfl
  · unfold csvFieldnames
    by_cases h : (mergeByEmail cs).any (fun c => c.phone.isSome) = true
    · rw [if_pos h]; simp [insertAt, h]
    · rw [if_neg h]; simp [h]
  · have hrows : ((contactsCsvRows (mergeByEmail cs)).drop 1).map (fun r => r.getD 2 "")
        = (mergeByEmail cs).map
            (fun c => ((csvFieldnames (mergeByEmail cs)).map (contactField c)).getD 2 "") := by
      unfold contactsCsvRows
      simp [List.map_map, Function.comp]
    have hcell : ∀ c : Contact,
        ((csvFieldnames (mergeByEmail cs)).map (contactField c)).getD 2 "" = c.email := by
      intro c
      unfold csvFieldnames
      by_cases h : (mergeByEmail cs).any (fun c => c.phone.isSome) = true
      · rw [if_pos h]; rfl
      · rw [if_neg h]; rfl
    rw [hrows, List.map_congr_left (fun c _ => hcell c),
      mergeByEmail_eq_mergeSpec]
    exact mergeSpec_map_email cs

/-- C7 counterexample: a successful Stage 1 run writes its artifact but
returns `None` to its caller, not the path of the written artifact, so
"every stage … returns the path of the written artifact" fails at
Stage 1. -/
theorem claim_write_once_counterexample :
    Ev.wrote leaguesPath
      ∈ (categoriesScrape leaguesPath false false orcA.page1 "ts1" fsEmpty).2.1
    ∧ (categoriesScrape leaguesPath false false orcA.page1 "ts1" fsEmpty).2.2 = .ok none
    ∧ (categoriesScrape leaguesPath false false orcA.page1 "ts1" fsEmpty).2.2
        ≠ .ok (some leaguesPath) := by
  refine ⟨by decide, rfl, ?_⟩
  intro hcontra
  exact Option.noConfusion (Except.ok.inj hcontra)

/-- C7 amended: every stage writes its output artifact exactly once,
after all upstream items are processed (the write event is the last event
and the only write event); Stages 2 and 3 then return the artifact path,
while Stage 1 returns `None`. -/
theorem claim_write_once_amended :
    (∀ (f : String) (page : Stage1Page) (ts : String) (fs : Fs),
      page.filtersOk = true →
      categoriesScrape f false false page ts fs
        = (fs.set f (.leaguesDoc ts page.results),
           [.visit categoriesUrl, .wrote f], .ok none))
    ∧ (∀ (extract : String → Except String (List TeamRec)) (ts ts0 : String)
        (lgs : List LeagueRec) (fs : Fs),
        fs leaguesPath = some (.leaguesDoc ts0 lgs) →
        ((teamsScrape extract ts fs).2.1.filter isWrote = [.wrote teamsPath]
          ∧ (teamsScrape extract ts fs).2.1.getLast? = some (.wrote teamsPath)
          ∧ (teamsScrape extract ts fs).2.2 = .ok (some teamsPath)))
    ∧ (∀ (extract : String → Except String (Option ContactInfo)) (ts0 : String)
        (np nt : Nat) (lgs : List LeagueTeams) (fs : Fs),
        fs teamsPath = some (.teamsDoc ts0 np nt lgs) →
        ((contactScrape extract fs).2.1.filter isWrote = [.wrote contactsPath]
          ∧ (contactScrape extract fs).2.1.getLast? = some (.wrote contactsPath)
          ∧ (contactScrape extract fs).2.2 = .ok (some contactsPath))) := by
  refine ⟨?_, ?_, ?_⟩
  · intro f page ts fs h
    unfold categoriesScrape
    rw [if_neg (by simp), if_neg (by simp), if_neg (by simp [h])]
  · intro extract ts ts0 lgs fs h
    unfold teamsScrape
    rw [h]
    refine ⟨?_, ?_, ?_⟩
    · show ((lgs.foldl (teamsStep extract) ([], [])).2 ++ [Ev.wrote teamsPath]).filter isWrote
        = [Ev.wrote teamsPath]
      rw [List.filter_append, teamsStep_foldl_no_wrote]
      rfl
    · exact List.getLast?_concat _
    · rfl
  · intro extract ts0 np nt lgs fs h
    unfold contactScrape
    rw [h]
    refine ⟨?_, ?_, ?_⟩
    · show (((lgs.flatMap (fun lg : LeagueTeams => lg.teams.map
          (fun t : TeamRec => StageTeam.mk lg.league_name t.name t.url))).map
            (processTeam extract)).flatMap
              (fun s : List Ev × Option Contact => s.1)
          ++ [Ev.wrote contactsPath]).filter isWrote = [Ev.wrote contactsPath]
      rw [List.filter_append, contact_loop_no_wrote]
      rfl
    · exact List.getLast?_concat _
    · rfl

/-- Witness for C7 amended at concrete runs of all three stages. -/
theorem claim_write_once_amended_witness :
    categoriesScrape leaguesPath false false orcA.page1 "ts1" fsEmpty
      = (fsEmpty.set leaguesPath (.leaguesDoc "ts1" orcA.page1.results),
         [.visit categoriesUrl, .wrote leaguesPath], .ok none)
    ∧ ((teamsScrape orcA.extractTeams "ts2" fsWithLeagues).2.1.filter isWrote
        = [.wrote teamsPath]
      ∧ (teamsScrape orcA.extractTeams "ts2" fsWithLeagues).2.1.getLast?
        = some (.wrote teamsPath)
      ∧ (teamsScrape orcA.extractTeams "ts2" fsWithLeagues).2.2 = .ok (some teamsPath))
    ∧ ((contactScrape orcA.extractContact fsTeamsReady).2.1.filter isWrote
        = [.wrote contactsPath]
      ∧ (contactScrape orcA.extractContact fsTeamsReady).2.1.getLast?
        = some (.wrote contactsPath)
      ∧ (contactScrape orcA.extractContact fsTeamsReady).2.2 = .ok (some contactsPath)) :=
  ⟨claim_write_once_amended.1 leaguesPath orcA.page1 "ts1" fsEmpty rfl,
   claim_write_once_amended.2.1 orcA.extractTeams "ts2" "t0" [leagueA] fsWithLeagues
     (by decide),
   claim_write_once_amended.2.2 orcA.extractContact "t0" 1 1 [⟨"A", "u1", [teamX]⟩]
     fsTeamsReady (by decide)⟩

/-- C1 counterexample: with the resume option set and Stage 2's own
output artifact already present (holding `raw "OLD"`), invoking Stage 2
through the orchestrator still performs a page visit and overwrites the
artifact, so the resume no-op claim fails for Stage 2 (whose `scrape()`
takes no resume parameter at all). -/
theorem claim_resume_counterexample :
    (⟨true, false⟩ : RunConfig).resume = true
    ∧ (fsWithLeagues teamsPath).isSome = true
    ∧ ((run_teams ⟨true, false⟩ orcA fsWithLeagues).2.filter isVisit).length = 1
    ∧ (run_teams ⟨true, false⟩ orcA fsWithLeagues).1 teamsPath
        ≠ fsWithLeagues teamsPath := by
  refine ⟨rfl, by decide, by decide, by decide⟩

/-- C1 amended: only Stage 1 implements the resume policy: if resume is
set and its output file exists, Stage 1 is a no-op success with no event.
Stages 2 and 3 ignore the run options entirely (their runners behave
identically for every configuration), so with resume set they re-scrape
and rewrite their outputs. -/
theorem claim_resume_amended :
    (∀ (f : String) (page : Stage1Page) (ts : String) (fs : Fs),
      (fs f).isSome = true →
      categoriesScrape f true false page ts fs = (fs, [], .ok none))
    ∧ (∀ (cfg cfg' : RunConfig) (orc : PipelineOracle) (fs : Fs),
        run_teams cfg orc fs = run_teams cfg' orc fs)
    ∧ (∀ (cfg cfg' : RunConfig) (orc : PipelineOracle) (fs : Fs),
        run_contact cfg orc fs = run_contact cfg' orc fs) := by
  refine ⟨?_, fun _ _ _ _ => rfl, fun _ _ _ _ => rfl⟩
  intro f page ts fs h
  unfold categoriesScrape
  rw [if_neg (by simp), if_pos (by simp [h])]

/-- Witness for C1 amended: Stage 1 resumes (no-op) on a filesystem where
its artifact exists. -/
theorem claim_resume_amended_witness :
    (fsWithLeagues leaguesPath).isSome = true
    ∧ categoriesScrape leaguesPath true false orcA.page1 "ts1" fsWithLeagues
        = (fsWithLeagues, [], .ok none) :=
  ⟨by decide,
   claim_resume_amended.1 leaguesPath orcA.page1 "ts1" fsWithLeagues (by decide)⟩

/-- C2 counterexample: with the dry-run option set, invoking Stage 3
through the orchestrator still performs a page visit and creates the
contacts artifact, so the dry-run claim fails for Stage 3 (whose
`scrape()` takes no dry-run parameter at all). -/
theorem claim_dry_run_counterexample :
    (⟨false, true⟩ : RunConfig).dry_run = true
    ∧ fsTeamsReady contactsPath = none
    ∧ ((run_contact ⟨false, true⟩ orcA fsTeamsReady).2.filter isVisit).length = 1
    ∧ ((run_contact ⟨false, true⟩ orcA fsTeamsReady).1 contactsPath).isSome = true := by
  refine ⟨rfl, by decide, by decide, by decide⟩

/-- C2 amended: only Stage 1 implements the dry-run policy: with dry-run
set, Stage 1 returns immediately with no event and no write, for every
filesystem state. Stages 2 and 3 ignore the run options entirely, so
with dry-run set they still scrape and write. -/
theorem claim_dry_run_amended :
    (∀ (f : String) (resume : Bool) (page : Stage1Page) (ts : String) (fs : Fs),
      categoriesScrape f resume true page ts fs = (fs, [], .ok none))
    ∧ (∀ (cfg cfg' : RunConfig) (orc : PipelineOracle) (fs : Fs),
        run_teams cfg orc fs = run_teams cfg' orc fs)
    ∧ (∀ (cfg cfg' : RunConfig) (orc : PipelineOracle) (fs : Fs),
        run_contact cfg orc fs = run_contact cfg' orc fs) :=
  ⟨fun f _ page ts fs => by unfold categoriesScrape; rw [if_pos rfl],
   fun _ _ _ _ => rfl, fun _ _ _ _ => rfl⟩

/-- C3 counterexample: in a run-all run in which Stage 1 raises a
stage-level error (filters fail), Stages 2 and 3 are nevertheless
invoked, and — the upstream artifacts existing from an earlier run —
both even scrape: the run performs three page visits in total. -/
theorem claim_run_all_counterexample :
    (categoriesScrape leaguesPath false false orcFiltersFail.page1
        orcFiltersFail.ts1 fsWithLeagues).2.2
      = .error (.stageError "Failed to apply filters")
    ∧ Ev.stageStart 2 ∈ (run_all_stages ⟨false, false⟩ orcFiltersFail fsWithLeagues).2
    ∧ Ev.stageStart 3 ∈ (run_all_stages ⟨false, false⟩ orcFiltersFail fsWithLeagues).2
    ∧ ((run_all_stages ⟨false, false⟩ orcFiltersFail fsWithLeagues).2.filter
        isVisit).length = 3 := by
  refine ⟨rfl, by decide, by decide, by decide⟩

/-- C3 amended: in run-all mode every stage runner is invoked
unconditionally — a stage failure is caught and reported inside its
runner rather than stopping the pipeline — and a later stage aborts
before scraping only because its upstream artifact is missing: on a fresh
filesystem, a run whose Stage 1 fails to apply filters produces exactly
the three stage starts and Stage 1's single page visit. -/
theorem claim_run_all_amended (cfg : RunConfig) (orc : PipelineOracle) (fs : Fs) :
    Ev.stageStart 1 ∈ (run_all_stages cfg orc fs).2
    ∧ Ev.stageStart 2 ∈ (run_all_stages cfg orc fs).2
    ∧ Ev.stageStart 3 ∈ (run_all_stages cfg orc fs).2
    ∧ (fs leaguesPath = none → fs teamsPath = none → cfg.dry_run = false →
        orc.page1.filtersOk = false →
        (run_all_stages cfg orc fs).2
          = [Ev.stageStart 1, Ev.visit categoriesUrl, Ev.stageStart 2,
             Ev.stageStart 3]) := by
  obtain ⟨t2, h2⟩ := run_teams_events_head cfg orc (run_categories cfg orc fs).1
  obtain ⟨t3, h3⟩ := run_contact_events_head cfg orc
    (run_teams cfg orc (run_categories cfg orc fs).1).1
  refine ⟨?_, ?_, ?_, ?_⟩
  · simp only [run_all_stages, List.mem_append]
    left; left
    simp [run_categories]
  · simp only [run_all_stages, List.mem_append]
    left; right
    rw [h2]
    simp
  · simp only [run_all_stages, List.mem_append]
    right
    rw [h3]
    simp
  · intro h1 ht hd hf
    have e1 : run_categories cfg orc fs
        = (fs, [Ev.stageStart 1, Ev.visit categoriesUrl]) := by
      unfold run_categories categoriesScrape
      rw [if_neg (by simp [hd]), if_neg (by simp [h1]), if_pos (by simp [hf])]
    have e2 : run_teams cfg orc fs = (fs, [Ev.stageStart 2]) := by
      unfold run_teams
      rw [if_pos (by simp [h1])]
    have e3 : run_contact cfg orc fs = (fs, [Ev.stageStart 3]) := by
      unfold run_contact
      rw [if_pos (by simp [ht])]
    simp [run_all_stages, e1, e2, e3]

/-- Witness for C3 amended on a fresh filesystem with failing filters. -/
theorem claim_run_all_amended_witness :
    Ev.stageStart 1 ∈ (run_all_stages ⟨false, false⟩ orcFiltersFail fsEmpty).2
    ∧ Ev.stageStart 2 ∈ (run_all_stages ⟨false, false⟩ orcFiltersFail fsEmpty).2
    ∧ Ev.stageStart 3 ∈ (run_all_stages ⟨false, false⟩ orcFiltersFail fsEmpty).2
    ∧ (run_all_stages ⟨false, false⟩ orcFiltersFail fsEmpty).2
        = [Ev.stageStart 1, Ev.visit categoriesUrl, Ev.stageStart 2,
           Ev.stageStart 3] := by
  have h := claim_run_all_amended ⟨false, false⟩ orcFiltersFail fsEmpty
  exact ⟨h.1, h.2.1, h.2.2.1, h.2.2.2 rfl rfl rfl rfl⟩

end Palloliitto
